import Mathlib

/-!
Verification development for the wifi scanning / live-plotting repository
(`wifi.py`, `signaali.py`, `signal1.py`, `signal3.py`, `aalto.py`).

The Python sources are shallowly embedded below:
* strings are `List Char` / `String`, Python `None` is `Option.none`;
* Python floats are modelled as rationals (`ℚ`); all values that actually
  flow through the programs in the verified scenarios are exact decimals;
* `numpy.nan` absent markers in the history deques are modelled as `none`;
* a Python function that can raise is modelled with `Except Unit`;
* `collections.deque(maxlen=N)` appends are modelled by `dqAppend`.
-/

namespace Wifi

/-! ## Character / string helpers (Python `str` and `re` fragments) -/

/-- Whitespace characters matched by Python's regex class backslash-s
(space, tab, newline, carriage return, vertical tab, form feed). -/
def isWS (c : Char) : Bool :=
  c == ' ' || c == '\t' || c == '\n' || c == '\r' || c == Char.ofNat 11 || c == Char.ofNat 12

/-- Drop leading whitespace. -/
def dropWS : List Char → List Char
  | [] => []
  | c :: cs => if isWS c then dropWS cs else c :: cs

/-- Python `str.strip()`: drop leading and trailing whitespace. -/
def stripWS (l : List Char) : List Char :=
  (dropWS ((dropWS l).reverse)).reverse

/-- State machine for splitting a line on runs of two or more whitespace
characters, as done by `re.split` with pattern whitespace-run-of-two-or-more
in every tabular parser of the repository.
State 0: building a token; state 1: one pending whitespace character `p`
(a single whitespace stays inside the token); state 2: inside a delimiter
run, skipping its whitespace. -/
def splitGo (st : Nat) (p : Char) (cur : List Char) : List Char → List (List Char)
  | [] =>
      if st = 0 then [cur.reverse]
      else if st = 1 then [(p :: cur).reverse]
      else [[]]
  | c :: cs =>
      if st = 0 then
        (if isWS c then splitGo 1 c cur cs else splitGo 0 p (c :: cur) cs)
      else if st = 1 then
        (if isWS c then cur.reverse :: splitGo 2 p [] cs else splitGo 0 p (c :: p :: cur) cs)
      else
        (if isWS c then splitGo 2 p cur cs else splitGo 0 p [c] cs)

/-- Model of `re.split(r'\s{2,}', line)` (the raw pattern appears in all parsers). -/
def splitWS2 (l : List Char) : List (List Char) :=
  splitGo 0 ' ' [] l

/-- The regex `^\d+$`: a nonempty all-digit token. -/
def isAllDigits (l : List Char) : Bool :=
  !l.isEmpty && l.all Char.isDigit

/-- Value of a digit string (as read by Python `int` on an all-digit string). -/
def digitsToNat (l : List Char) : Nat :=
  l.foldl (fun a c => a * 10 + (c.toNat - 48)) 0

/-- Python `int(s)` on a string: optional sign, then digits; anything else
raises, which we model as `none`. -/
def pyInt (l : List Char) : Option Int :=
  match stripWS l with
  | '-' :: rest => if isAllDigits rest then some (-(digitsToNat rest : Int)) else none
  | '+' :: rest => if isAllDigits rest then some ((digitsToNat rest : Int)) else none
  | s => if isAllDigits s then some ((digitsToNat s : Int)) else none

/-- Magnitude part of Python `float(s)`: digits with an optional fractional
part (scientific notation and inf/nan are not needed by any verified path). -/
def pyFloatMag (s : List Char) : Option ℚ :=
  let ip := s.takeWhile Char.isDigit
  let rest := s.dropWhile Char.isDigit
  match rest with
  | [] => if ip.isEmpty then none else some ((digitsToNat ip : ℚ))
  | '.' :: fp =>
      if fp.all Char.isDigit && !(ip.isEmpty && fp.isEmpty) then
        some ((digitsToNat ip : ℚ) + (digitsToNat fp : ℚ) / ((10 : ℚ) ^ fp.length))
      else none
  | _ => none

/-- Python `float(s)` on a string; `none` models a raised `ValueError`. -/
def pyFloatQ (l : List Char) : Option ℚ :=
  match stripWS l with
  | '-' :: rest => (pyFloatMag rest).map (fun q => -q)
  | '+' :: rest => pyFloatMag rest
  | s => pyFloatMag s

/-- Model of `re.search(r'(\d+)', s)`: the first maximal digit run of `s`. -/
def firstDigitRun : List Char → Option (List Char)
  | [] => none
  | c :: cs => if c.isDigit then some (c :: cs.takeWhile Char.isDigit) else firstDigitRun cs

/-- The trailing digit run of a token (regex digits anchored at the end). -/
def trailingDigits (l : List Char) : List Char :=
  (l.reverse.takeWhile Char.isDigit).reverse

/-- Model of `re.search` with pattern digits-anchored-at-end, as in `signal3.py` /
`aalto.py`: succeeds iff the token ends in at least one digit. -/
def lastDigitRun (l : List Char) : Option (List Char) :=
  let t := trailingDigits l
  if t.isEmpty then none else some t

/-- Model of `s.lower().startswith(p)` for an ASCII pattern `p`. -/
def startsWithLower : List Char → List Char → Bool
  | _, [] => true
  | [], _ :: _ => false
  | c :: cs, d :: ds => (c.toLower == d) && startsWithLower cs ds

/-! ## FrequencyTable (`channel_to_freq_mhz`, identical in all five files) -/

/-- The 5 GHz channel table literal from the sources. -/
def freqTable5 : List (Int × Int) :=
  [(36, 5180), (40, 5200), (44, 5220), (48, 5240),
   (52, 5260), (56, 5280), (60, 5300), (64, 5320),
   (100, 5500), (104, 5520), (108, 5540), (112, 5560), (116, 5580),
   (120, 5600), (124, 5620), (128, 5640), (132, 5660),
   (136, 5680), (140, 5700), (144, 5720),
   (149, 5745), (153, 5765), (157, 5785), (161, 5805), (165, 5825)]

/-- Model of `channel_to_freq_mhz(channel)`.  The `try: ch = int(channel) except:
return None` prologue is modelled by taking an `Option Int` argument:
`none` is a non-numeric input.  `table.get(ch)` is `List.lookup`. -/
def channel_to_freq_mhz (channel : Option Int) : Option Int :=
  match channel with
  | none => none
  | some ch =>
      if 1 ≤ ch ∧ ch ≤ 14 then some (2407 + 5 * ch)
      else freqTable5.lookup ch

/-! ## MetricDerivation (`dbm_to_snr`, `snr_to_srri` from signaali.py / signal3.py) -/

/-- Model of `dbm_to_snr(dbm)`: `max(0.0, dbm + 100.0)`, and `0.0` when `dbm is None`. -/
def dbm_to_snr (dbm : Option ℚ) : ℚ :=
  match dbm with
  | none => 0
  | some d => max 0 (d + 100)

/-- Model of `snr_to_srri(snr)`: `max(0.0, min(100.0, (snr / 70.0) * 100.0))`. -/
def snr_to_srri (snr : ℚ) : ℚ :=
  max 0 (min 100 (snr / 70 * 100))

/-! ## NetworkObservation and the tabular parsers -/

/-- One parsed scan record, the dictionaries appended by every parser:
`{'ssid': ..., 'freq_mhz': ..., 'dbm': ...}` with Python `None` as `none`.
`ssid` is an `Option` because `wifi.py`'s `parse_iwlist` can store `None`. -/
structure NetworkObservation where
  ssid : Option String
  freq_mhz : Option Int
  dbm : Option ℚ
deriving DecidableEq, Repr

/-- One line of `parse_nmcli` from `wifi.py` (lines 94–124); `none` means the
line was skipped (`continue`).  The input is one element of
`output.strip().splitlines()`. -/
def parse_nmcli_wifi_line (line : String) : Option NetworkObservation :=
  let cs := line.toList
  if (stripWS cs).isEmpty then none
  else
    let parts := (splitWS2 cs).map stripWS
    match parts with
    | [] => none
    | p0 :: restParts =>
        if startsWithLower p0 "ssid".toList || startsWithLower p0 "in-use".toList then none
        else
          let chan := if parts.length ≥ 2 then restParts.find? isAllDigits else none
          let sig :=
            if parts.length ≥ 3 then
              match parts.getLast? with
              | some last => (firstDigitRun last).map (fun d => (digitsToNat d : ℚ))
              | none => none
            else none
          let freq :=
            match chan with
            | some c =>
                if isAllDigits c then channel_to_freq_mhz (some ((digitsToNat c : Int)))
                else none
            | none => none
          some { ssid := some (String.mk p0), freq_mhz := freq,
                 dbm := sig.map (fun s => s - 100) }

/-- Model of `parse_nmcli(output)` from `wifi.py`, taking the already-split lines. -/
def parse_nmcli_wifi (lines : List String) : List NetworkObservation :=
  lines.filterMap parse_nmcli_wifi_line

/-- The token loop of `parse_nmcli` in `signal3.py` (lines 42–47): every
all-digit token overwrites `chan`; every token with a trailing digit run
whose value qualifies (ends in percent sign, or value at most 100)
overwrites `sig`.  No `break` occurs in the source. -/
def signal3TokLoop : List (List Char) → Option (List Char) → Option ℚ →
    Option (List Char) × Option ℚ
  | [], chan, sig => (chan, sig)
  | t :: ts, chan, sig =>
      let chan2 := if isAllDigits t then some t else chan
      let sig2 :=
        match lastDigitRun t with
        | some d =>
            if t.getLast? = some '%' ∨ digitsToNat d ≤ 100 then some ((digitsToNat d : ℚ))
            else sig
        | none => sig
      signal3TokLoop ts chan2 sig2

/-- One line of `parse_nmcli` from `signal3.py` (lines 30–51). Tokens are
stripped and empty tokens dropped (the `if p.strip()` filter). -/
def parse_nmcli_signal3_line (line : String) : Option NetworkObservation :=
  let cs := line.toList
  if (stripWS cs).isEmpty then none
  else
    let parts := (splitWS2 cs).filterMap
      (fun p => let q := stripWS p; if q.isEmpty then none else some q)
    match parts with
    | [] => none
    | p0 :: restParts =>
        if startsWithLower p0 "ssid".toList then none
        else
          let csig := signal3TokLoop restParts none none
          let freq :=
            match csig.1 with
            | some c => channel_to_freq_mhz (some ((digitsToNat c : Int)))
            | none => none
          let dbm := csig.2.map (fun s => s / 100 * 50 - 100)
          some { ssid := some (if p0.isEmpty then "<hidden>" else String.mk p0),
                 freq_mhz := freq, dbm := dbm }

/-- Model of `parse_nmcli(output)` from `signal3.py`, over the already-split lines. -/
def parse_nmcli_signal3 (lines : List String) : List NetworkObservation :=
  lines.filterMap parse_nmcli_signal3_line

/-- One row of the inline nmcli parser in `scan_wifi` of `signaali.py`
(lines 69–77).  `Except.error` models an exception escaping the row
(`int(parts[1])` or `float(parts[2])` raising); `Except.ok none` models a
row that appends nothing (fewer than three columns). -/
def signaaliRow (line : String) : Except Unit (Option NetworkObservation) :=
  let parts := splitWS2 (stripWS line.toList)
  match parts with
  | p0 :: p1 :: p2 :: _ =>
      match pyInt p1 with
      | none => .error ()
      | some ch =>
          match pyFloatQ p2 with
          | none => .error ()
          | some sig =>
              .ok (some { ssid := some (if p0.isEmpty then "<hidden>" else String.mk p0),
                          freq_mhz := channel_to_freq_mhz (some ch),
                          dbm := some (sig / 100 * 50 - 100) })
  | _ => .ok none

/-- The row loop of the Linux branch of `scan_wifi` in `signaali.py`:
rows are processed in order and an exception propagates out of the loop. -/
def signaaliRows : List String → Except Unit (List NetworkObservation)
  | [] => .ok []
  | line :: rest =>
      match signaaliRow line with
      | .error e => .error e
      | .ok none => signaaliRows rest
      | .ok (some obs) => (signaaliRows rest).map (fun l => obs :: l)

/-- The Linux branch of `scan_wifi` in `signaali.py` (lines 62–80): rows
after the first (header) line are parsed in order; any exception makes the
surrounding handler return the empty list, discarding all parsed rows. -/
def scan_wifi_signaali (lines : List String) : List NetworkObservation :=
  match signaaliRows (lines.drop 1) with
  | .error _ => []
  | .ok l => l

/-! ## HistoryStore: deque-backed rolling series -/

/-- Model of `collections.deque(maxlen=N).append(x)`: keep the last `N` elements. -/
def dqAppend {α : Type} (N : Nat) (x : α) (l : List α) : List α :=
  let l2 := l ++ [x]
  l2.drop (l2.length - N)

/-- The three per-identity metric deques of `signaali.py`
(`history_rssi`, `history_snr`, `history_srri`). -/
structure Series where
  rssi : List (Option ℚ)
  snr : List (Option ℚ)
  srri : List (Option ℚ)
deriving DecidableEq, Repr

def Series.empty : Series := ⟨[], [], []⟩

/-- Appends for a network seen this tick (`scanner_thread`, `signaali.py`
lines 110–118): the raw dBm (possibly `None`), derived SNR, derived SRRI. -/
def Series.appendVal (N : Nat) (dbm : Option ℚ) (s : Series) : Series :=
  ⟨dqAppend N dbm s.rssi,
   dqAppend N (some (dbm_to_snr dbm)) s.snr,
   dqAppend N (some (snr_to_srri (dbm_to_snr dbm))) s.srri⟩

/-- Appends for a tracked network not seen this tick: `np.nan` markers. -/
def Series.appendNaN (N : Nat) (s : Series) : Series :=
  ⟨dqAppend N none s.rssi, dqAppend N none s.snr, dqAppend N none s.srri⟩

/-- Model of `net.get('ssid') or '<hidden>'`. -/
def normSsid (s : Option String) : String :=
  match s with
  | none => "<hidden>"
  | some t => if t = "" then "<hidden>" else t

/-- The shared state of `signaali.py`: the time-axis deque and the
per-identity series, as an insertion-ordered association list (Python dicts
preserve insertion order; `defaultdict` creates entries on first access). -/
structure HState where
  timeAxis : List ℚ
  hist : List (String × Series)
deriving DecidableEq, Repr

/-- Model of `history_*[ssid].append(...)` on a `defaultdict`: update the entry in
place, or create it at the end of the insertion order. -/
def histAppend (N : Nat) (id : String) (dbm : Option ℚ) :
    List (String × Series) → List (String × Series)
  | [] => [(id, Series.empty.appendVal N dbm)]
  | p :: rest =>
      if p.1 = id then (p.1, p.2.appendVal N dbm) :: rest
      else p :: histAppend N id dbm rest

/-- The per-observation loop of one tick. -/
def histFold (N : Nat) (nets : List NetworkObservation)
    (h : List (String × Series)) : List (String × Series) :=
  nets.foldl (fun h2 net => histAppend N (normSsid net.ssid) net.dbm h2) h

/-- The identities seen in one tick (the `seen` set). -/
def seenOf (nets : List NetworkObservation) : List String :=
  nets.map (fun n => normSsid n.ssid)

/-- The absent-marker loop: every tracked identity not seen this tick gets
`np.nan` appended to each of its series. -/
def markAbsent (N : Nat) (seen : List String)
    (h : List (String × Series)) : List (String × Series) :=
  h.map (fun p => if p.1 ∈ seen then p else (p.1, p.2.appendNaN N))

/-- One tick of `scanner_thread` in `signaali.py` (lines 103–124): the
timestamp is appended unconditionally, observed identities get values, all
other tracked identities get absent markers. -/
def tickSignaali (N : Nat) (t : ℚ) (nets : List NetworkObservation) (s : HState) : HState :=
  { timeAxis := dqAppend N t s.timeAxis,
    hist := markAbsent N (seenOf nets) (histFold N nets s.hist) }

/-- States reachable from the empty store by ticks whose scan results carry
pairwise distinct identities (nmcli lists each SSID once per scan). -/
inductive ReachD (N : Nat) : HState → Prop
  | init : ReachD N ⟨[], []⟩
  | step (s : HState) (h : ReachD N s) (t : ℚ) (nets : List NetworkObservation)
      (hnodup : (seenOf nets).Nodup) : ReachD N (tickSignaali N t nets s)

/-- Dictionary lookup in the history association list. -/
def histLookup (id : String) : List (String × Series) → Option Series
  | [] => none
  | p :: rest => if p.1 = id then some p.2 else histLookup id rest

/-- The four per-identity metric deques of `signal3.py` (rssi, snr, srri and
frequency). -/
structure Series4 where
  rssi : List (Option ℚ)
  snr : List (Option ℚ)
  srri : List (Option ℚ)
  freq : List (Option ℚ)
deriving DecidableEq, Repr

def Series4.empty : Series4 := ⟨[], [], [], []⟩

def Series4.appendVal (N : Nat) (dbm fr : Option ℚ) (s : Series4) : Series4 :=
  ⟨dqAppend N dbm s.rssi,
   dqAppend N (some (dbm_to_snr dbm)) s.snr,
   dqAppend N (some (snr_to_srri (dbm_to_snr dbm))) s.srri,
   dqAppend N fr s.freq⟩

def Series4.appendNaN (N : Nat) (s : Series4) : Series4 :=
  ⟨dqAppend N none s.rssi, dqAppend N none s.snr,
   dqAppend N none s.srri, dqAppend N none s.freq⟩

/-- The shared state of `signal3.py`. -/
structure HState3 where
  timeAxis : List ℚ
  hist : List (String × Series4)
deriving DecidableEq, Repr

def hist3Append (N : Nat) (id : String) (dbm fr : Option ℚ) :
    List (String × Series4) → List (String × Series4)
  | [] => [(id, Series4.empty.appendVal N dbm fr)]
  | p :: rest =>
      if p.1 = id then (p.1, p.2.appendVal N dbm fr) :: rest
      else p :: hist3Append N id dbm fr rest

def hist3Fold (N : Nat) (nets : List NetworkObservation)
    (h : List (String × Series4)) : List (String × Series4) :=
  nets.foldl
    (fun h2 net => hist3Append N (normSsid net.ssid) net.dbm
      (net.freq_mhz.map (fun i => (i : ℚ))) h2) h

def markAbsent3 (N : Nat) (seen : List String)
    (h : List (String × Series4)) : List (String × Series4) :=
  h.map (fun p => if p.1 ∈ seen then p else (p.1, p.2.appendNaN N))

/-- One tick of `scanner_thread` in `signal3.py` (lines 110–135): the
timestamp is appended only when the axis is empty or the new time is at
least 1.0 s after the last one; the history loops run unconditionally. -/
def tickSignal3 (N : Nat) (t : ℚ) (nets : List NetworkObservation) (s : HState3) : HState3 :=
  { timeAxis :=
      if s.timeAxis = [] ∨ t - ((s.timeAxis.getLast?).getD 0) ≥ 1 then
        dqAppend N t s.timeAxis
      else s.timeAxis,
    hist := markAbsent3 N (seenOf nets) (hist3Fold N nets s.hist) }

/-- The shared state of `aalto.py` (one dBm deque per identity). -/
structure HStateA where
  timeAxis : List ℚ
  hist : List (String × List (Option ℚ))
deriving DecidableEq, Repr

def histAAppend (N : Nat) (id : String) (v : ℚ) :
    List (String × List (Option ℚ)) → List (String × List (Option ℚ))
  | [] => [(id, dqAppend N (some v) [])]
  | p :: rest =>
      if p.1 = id then (p.1, dqAppend N (some v) p.2) :: rest
      else p :: histAAppend N id v rest

def histAFold (N : Nat) (nets : List NetworkObservation)
    (h : List (String × List (Option ℚ))) : List (String × List (Option ℚ)) :=
  nets.foldl
    (fun h2 net => histAAppend N (normSsid net.ssid) (net.dbm.getD (-100)) h2) h

def markAbsentA (N : Nat) (seen : List String)
    (h : List (String × List (Option ℚ))) : List (String × List (Option ℚ)) :=
  h.map (fun p => if p.1 ∈ seen then p else (p.1, dqAppend N none p.2))

/-- One tick of `scanner_thread_func` in `aalto.py` (lines 195–221):
debounce threshold 0.9 s; a missing dBm becomes the default −100.0. -/
def tickAalto (N : Nat) (t : ℚ) (nets : List NetworkObservation) (s : HStateA) : HStateA :=
  { timeAxis :=
      if s.timeAxis = [] ∨ t - ((s.timeAxis.getLast?).getD 0) ≥ 9/10 then
        dqAppend N t s.timeAxis
      else s.timeAxis,
    hist := markAbsentA N (seenOf nets) (histAFold N nets s.hist) }

/-! ## Top-N ranking (`update_plot` in signaali.py / aalto.py) -/

/-- Model of `np.nanmax(np.array(history[s])) if history[s] else -999`: the maximum
over the present values of the series, `-999` for an empty deque (a series
of only absent markers, whose `nanmax` is NaN, is also mapped to `-999`;
no verified scenario hits that case). -/
def nanmaxOr (ser : List (Option ℚ)) : ℚ :=
  match ser.reduceOption with
  | [] => -999
  | v :: vs => vs.foldl max v

/-- Stable insertion of one element into an ascending-by-key list (later
elements go after equal keys), as Python's stable `sorted`. -/
def insertAsc (x : String × ℚ) : List (String × ℚ) → List (String × ℚ)
  | [] => [x]
  | y :: ys => if y.2 ≤ x.2 then y :: insertAsc x ys else x :: y :: ys

/-- Python `sorted(keys, key=...)`: stable, ascending. -/
def sortAsc (l : List (String × ℚ)) : List (String × ℚ) :=
  l.foldl (fun acc x => insertAsc x acc) []

/-- Model of `sorted(history.keys(), key=lambda s: nanmax(history[s]) ...)` from
`update_plot` (`signaali.py` line 160, `aalto.py` line 244): note the
absence of `reverse=True` in the source — the order is ascending. -/
def rankAscending (hist : List (String × List (Option ℚ))) : List String :=
  (sortAsc (hist.map (fun p => (p.1, nanmaxOr p.2)))).map Prod.fst

/-- Model of `top_ssids = ssids[:n]`. -/
def top_ssids (n : Nat) (hist : List (String × List (Option ℚ))) : List String :=
  (rankAscending hist).take n

/-- Observation of network A, seen in both ticks of the counterexample. -/
def obsA : NetworkObservation := ⟨some "A", some 2437, some (-40)⟩

/-- Observation of network B, first seen in the second tick. -/
def obsB : NetworkObservation := ⟨some "B", some 2437, some (-30)⟩

/-- Two ticks of `signaali.py`: tick 1 sees only A, tick 2 sees A and B. -/
def s2ex : HState := tickSignaali 60 2 [obsA, obsB] (tickSignaali 60 0 [obsA] ⟨[], []⟩)

/-! ## Theorems -/

theorem lookup_eq_none_of_not_mem_keys (l : List (Int × Int)) (c : Int)
    (h : c ∉ l.map Prod.fst) : l.lookup c = none := by
  induction l with
  | nil => rfl
  | cons p rest ih =>
      simp only [List.map_cons, List.mem_cons, not_or] at h
      rw [List.lookup_cons]
      have hne : (c == p.1) = false := by
        simp only [beq_eq_false_iff_ne, ne_eq]
        exact h.1
      rw [hne]
      exact ih h.2

/-- Claim C2: for channels 1–14, `channel_to_freq_mhz` is `2407 + 5·c`;
for every channel of the 5 GHz table it returns the tabulated value; for
channels outside both sets, and for non-numeric input, it returns `none`. -/
theorem C2_channel_to_frequency :
    (∀ c : Int, 1 ≤ c → c ≤ 14 → channel_to_freq_mhz (some c) = some (2407 + 5 * c)) ∧
    (∀ p ∈ freqTable5, channel_to_freq_mhz (some p.1) = some p.2) ∧
    (∀ c : Int, ¬(1 ≤ c ∧ c ≤ 14) → c ∉ freqTable5.map Prod.fst →
      channel_to_freq_mhz (some c) = none) ∧
    channel_to_freq_mhz none = none := by
  refine ⟨?_, ?_, ?_, rfl⟩
  · intro c h1 h14
    simp only [channel_to_freq_mhz]
    rw [if_pos ⟨h1, h14⟩]
  · intro p hp
    fin_cases hp <;> rfl
  · intro c hband htab
    simp only [channel_to_freq_mhz]
    rw [if_neg hband]
    exact lookup_eq_none_of_not_mem_keys _ _ htab

theorem C2_channel_to_frequency_witness :
    channel_to_freq_mhz (some 6) = some 2437 ∧
    channel_to_freq_mhz (some 36) = some 5180 ∧
    channel_to_freq_mhz (some 15) = none := by
  refine ⟨?_, ?_, ?_⟩
  · have h := C2_channel_to_frequency.1 6 (by decide) (by decide)
    simpa using h
  · exact C2_channel_to_frequency.2.1 (36, 5180) (by decide)
  · exact C2_channel_to_frequency.2.2.1 15 (by decide) (by decide)

/-- Claim C3: `dbm_to_snr` is `max 0 (d + 100)` with `0` on absent input,
and `snr_to_srri` clamps `snr/70·100` into `[0, 100]`, hence its result
always lies in `[0, 100]`. -/
theorem C3_metric_derivation :
    (∀ d : ℚ, dbm_to_snr (some d) = max 0 (d + 100)) ∧
    dbm_to_snr none = 0 ∧
    (∀ snr : ℚ, snr_to_srri snr = max 0 (min 100 (snr / 70 * 100))) ∧
    (∀ snr : ℚ, 0 ≤ snr_to_srri snr ∧ snr_to_srri snr ≤ 100) := by
  refine ⟨fun d => rfl, rfl, fun snr => rfl, fun snr => ⟨le_max_left _ _, ?_⟩⟩
  exact max_le (by norm_num) (min_le_left _ _)

/-! ## Claim C5: percentage to dBm conversion in the column-table dialect -/

/-- Claim C5 (amended): in `signaali.py`'s column-table parser a percentage
signal `sig` is converted by the affine map `sig/100·50 − 100`, and the data
row `"MyNet    6    80"` parses to identity `MyNet`, 2437 MHz, −60 dBm.
(`wifi.py`'s `parse_nmcli` differs; see the counterexample.) -/
theorem C5_column_table_dialect :
    (∀ (line : String) p0 p1 p2 rest ch sig,
      splitWS2 (stripWS line.toList) = p0 :: p1 :: p2 :: rest →
      pyInt p1 = some ch → pyFloatQ p2 = some sig →
      signaaliRow line = .ok (some
        { ssid := some (if p0.isEmpty then "<hidden>" else String.mk p0),
          freq_mhz := channel_to_freq_mhz (some ch),
          dbm := some (sig / 100 * 50 - 100) })) ∧
    scan_wifi_signaali ["SSID  CHAN  SIGNAL", "MyNet    6    80"] =
      [{ ssid := some "MyNet", freq_mhz := some 2437, dbm := some (-60) }] := by
  constructor
  · intro line p0 p1 p2 rest ch sig hsplit hint hfloat
    simp only [signaaliRow, hsplit, hint, hfloat]
  · simp +decide [scan_wifi_signaali, signaaliRows, signaaliRow, Except.map, splitWS2, splitGo,
      stripWS, dropWS, isWS, isAllDigits, digitsToNat, pyInt, pyFloatQ, pyFloatMag,
      channel_to_freq_mhz, freqTable5]
    norm_num

theorem C5_column_table_dialect_witness :
    signaaliRow "MyNet    6    80" = .ok (some
      { ssid := some "MyNet", freq_mhz := some 2437, dbm := some ((80 : ℚ) / 100 * 50 - 100) }) := by
  have h := C5_column_table_dialect.1 "MyNet    6    80"
    "MyNet".toList "6".toList "80".toList [] 6 80
    (by decide)
    (by decide)
    (by simp +decide [pyFloatQ, pyFloatMag, stripWS, dropWS, isWS, digitsToNat])
  simpa +decide [channel_to_freq_mhz, freqTable5] using h

/-- Claim C5 counterexample: `wifi.py`'s column-table parser (`parse_nmcli`)
converts the 80 % signal of the same row to −20 dBm (`sig − 100`), not to
the −60 dBm the affine map of the claim would give. -/
theorem C5_counterexample :
    parse_nmcli_wifi ["MyNet    6    80"] =
      [{ ssid := some "MyNet", freq_mhz := some 2437, dbm := some (-20) }] ∧
    ((-20 : ℚ) ≠ -60) := by
  constructor
  · simp +decide [parse_nmcli_wifi, parse_nmcli_wifi_line, splitWS2, splitGo, stripWS, dropWS,
      isWS, isAllDigits, digitsToNat, firstDigitRun, startsWithLower,
      channel_to_freq_mhz, freqTable5]
    norm_num
  · norm_num

/-! ## Claim C6: tie-breaking between channel-shaped and signal-shaped tokens -/

theorem signal3TokLoop_chan_last (ts : List (List Char)) :
    ∀ (t : List Char) (c0 : Option (List Char)) (s0 : Option ℚ),
      isAllDigits t = true → (signal3TokLoop (ts ++ [t]) c0 s0).1 = some t := by
  induction ts with
  | nil =>
      intro t c0 s0 h
      simp [signal3TokLoop, h]
  | cons u rest ih =>
      intro t c0 s0 h
      simp only [List.cons_append, signal3TokLoop]
      exact ih t _ _ h

theorem signal3TokLoop_sig_last (ts : List (List Char)) :
    ∀ (t : List Char) (c0 : Option (List Char)) (s0 : Option ℚ) (d : List Char),
      lastDigitRun t = some d → (t.getLast? = some '%' ∨ digitsToNat d ≤ 100) →
      (signal3TokLoop (ts ++ [t]) c0 s0).2 = some ((digitsToNat d : ℚ)) := by
  induction ts with
  | nil =>
      intro t c0 s0 d hd hcond
      simp [signal3TokLoop, hd, hcond]
  | cons u rest ih =>
      intro t c0 s0 d hd hcond
      simp only [List.cons_append, signal3TokLoop]
      exact ih t _ _ d hd hcond

theorem find?_first_match (t : List Char) (post : List (List Char)) :
    ∀ pre, (∀ u ∈ pre, isAllDigits u = false) → isAllDigits t = true →
      (pre ++ t :: post).find? isAllDigits = some t := by
  intro pre
  induction pre with
  | nil => intro _ ht; simp [List.find?, ht]
  | cons u rest ih =>
      intro hpre ht
      have hu : isAllDigits u = false := hpre u (by simp)
      simp only [List.cons_append, List.find?, hu]
      exact ih (fun v hv => hpre v (by simp [hv])) ht

/-- Claim C6 (amended): `wifi.py`'s `parse_nmcli` selects the first
channel-shaped token of a row (its loop breaks on the first match), while
`signal3.py`'s `parse_nmcli` token loop overwrites on every match, so the
last channel-shaped token and the last qualifying signal token win. -/
theorem C6_token_tiebreak :
    (∀ (pre : List (List Char)) (t : List Char) (post : List (List Char)),
      (∀ u ∈ pre, isAllDigits u = false) → isAllDigits t = true →
      (pre ++ t :: post).find? isAllDigits = some t) ∧
    (∀ (ts : List (List Char)) (t : List Char) (c0 : Option (List Char)) (s0 : Option ℚ),
      isAllDigits t = true → (signal3TokLoop (ts ++ [t]) c0 s0).1 = some t) ∧
    (∀ (ts : List (List Char)) (t : List Char) (c0 : Option (List Char)) (s0 : Option ℚ)
      (d : List Char),
      lastDigitRun t = some d → (t.getLast? = some '%' ∨ digitsToNat d ≤ 100) →
      (signal3TokLoop (ts ++ [t]) c0 s0).2 = some ((digitsToNat d : ℚ))) :=
  ⟨fun pre t post h ht => find?_first_match t post pre h ht,
   fun ts t c0 s0 h => signal3TokLoop_chan_last ts t c0 s0 h,
   fun ts t c0 s0 d hd hc => signal3TokLoop_sig_last ts t c0 s0 d hd hc⟩

theorem C6_token_tiebreak_witness :
    (["6".toList] ++ "80".toList :: []).find? isAllDigits = some "6".toList ∧
    (signal3TokLoop (["6".toList] ++ ["80".toList]) none none).1 = some "80".toList := by
  constructor
  · exact C6_token_tiebreak.1 [] "6".toList ["80".toList] (by simp) (by decide)
  · exact C6_token_tiebreak.2.1 ["6".toList] "80".toList none none (by decide)

/-- Claim C6 counterexample: on the row `"MyNet    6    80"`,
`signal3.py`'s `parse_nmcli` uses the last channel-shaped token `80`
(unmapped, so frequency is absent), not the first one `6` (which maps to
2437 MHz as the claim would require). -/
theorem C6_counterexample :
    parse_nmcli_signal3 ["MyNet    6    80"] =
      [{ ssid := some "MyNet", freq_mhz := none, dbm := some (-60) }] ∧
    channel_to_freq_mhz (some 6) = some 2437 ∧
    (none : Option Int) ≠ some 2437 := by
  refine ⟨?_, by decide, by decide⟩
  simp +decide [parse_nmcli_signal3, parse_nmcli_signal3_line, signal3TokLoop, splitWS2, splitGo,
    stripWS, dropWS, isWS, isAllDigits, digitsToNat, trailingDigits, lastDigitRun,
    startsWithLower, channel_to_freq_mhz, freqTable5]
  norm_num

/-! ## Claim C8: parser error recovery -/

theorem splitGo_ne_nil (l : List Char) : ∀ st p cur, splitGo st p cur l ≠ [] := by
  induction l with
  | nil =>
      intro st p cur
      simp only [splitGo]
      split
      · simp
      · split <;> simp
  | cons c cs ih =>
      intro st p cur
      simp only [splitGo]
      split
      · split
        · exact ih 1 c cur
        · exact ih 0 p (c :: cur)
      · split
        · split
          · simp
          · exact ih 0 p (c :: p :: cur)
        · split
          · exact ih 2 p cur
          · exact ih 0 p [c]

/-- Claim C8 (amended): `wifi.py`'s `parse_nmcli` is a total per-line map:
it never raises, lines are parsed independently (so a bad line cannot
discard other lines), and the token split always yields at least one token
(so the `parts[0]` access cannot fail).  `signaali.py`'s inline parser does
not have this property; see the counterexample. -/
theorem C8_parser_error_recovery :
    (∀ l1 l2 : List String,
      parse_nmcli_wifi (l1 ++ l2) = parse_nmcli_wifi l1 ++ parse_nmcli_wifi l2) ∧
    (∀ l : List Char, splitWS2 l ≠ []) :=
  ⟨fun l1 l2 => List.filterMap_append l1 l2 parse_nmcli_wifi_line,
   fun l => splitGo_ne_nil l 0 ' ' []⟩

/-- Claim C8 counterexample: in `signaali.py`'s inline nmcli parser a single
malformed row (`int('abc')` raises) makes `scan_wifi` return the empty list,
discarding the already-parsed valid row, which parses fine on its own. -/
theorem C8_counterexample :
    scan_wifi_signaali ["SSID  CHAN  SIGNAL", "Good  6  80", "Bad  abc  70"] = [] ∧
    scan_wifi_signaali ["SSID  CHAN  SIGNAL", "Good  6  80"] =
      [{ ssid := some "Good", freq_mhz := some 2437, dbm := some (-60) }] := by
  constructor
  · simp +decide [scan_wifi_signaali, signaaliRows, signaaliRow, splitWS2, splitGo, stripWS,
      dropWS, isWS, isAllDigits, digitsToNat, pyInt, pyFloatQ, pyFloatMag,
      channel_to_freq_mhz, freqTable5]
  · simp +decide [scan_wifi_signaali, signaaliRows, signaaliRow, Except.map, splitWS2, splitGo,
      stripWS, dropWS, isWS, isAllDigits, digitsToNat, pyInt, pyFloatQ, pyFloatMag,
      channel_to_freq_mhz, freqTable5]
    norm_num

/-! ## Claim C10: non-empty identity -/

theorem normName_ne_empty (p0 : List Char) :
    (if p0.isEmpty then "<hidden>" else String.mk p0) ≠ "" := by
  split
  · decide
  · next hp0 =>
      intro hc
      have hd : p0 = "".data := congrArg String.data hc
      rw [hd] at hp0
      exact hp0 rfl

theorem parse_nmcli_signal3_line_ssid (line : String) (obs : NetworkObservation)
    (h : parse_nmcli_signal3_line line = some obs) : ∃ s, obs.ssid = some s ∧ s ≠ "" := by
  simp only [parse_nmcli_signal3_line] at h
  split at h
  · exact absurd h (by simp)
  · split at h
    · exact absurd h (by simp)
    · split at h
      · exact absurd h (by simp)
      · rw [Option.some_inj] at h
        subst h
        exact ⟨_, rfl, normName_ne_empty _⟩

theorem signaaliRow_ssid (line : String) (o : NetworkObservation)
    (h : signaaliRow line = .ok (some o)) : ∃ s, o.ssid = some s ∧ s ≠ "" := by
  simp only [signaaliRow] at h
  split at h
  · split at h
    · exact absurd h (by simp)
    · split at h
      · exact absurd h (by simp)
      · rw [Except.ok.injEq, Option.some_inj] at h
        subst h
        exact ⟨_, rfl, normName_ne_empty _⟩
  · rw [Except.ok.injEq] at h
    exact absurd h (by simp)

theorem signaaliRows_ssid (ls : List String) :
    ∀ l, signaaliRows ls = .ok l → ∀ obs ∈ l, ∃ s, obs.ssid = some s ∧ s ≠ "" := by
  induction ls with
  | nil =>
      intro l hl obs hobs
      simp only [signaaliRows, Except.ok.injEq] at hl
      subst hl
      simp at hobs
  | cons line rest ih =>
      intro l hl obs hobs
      simp only [signaaliRows] at hl
      cases hsr : signaaliRow line with
      | error e => rw [hsr] at hl; exact absurd hl (by simp)
      | ok oOpt =>
          rw [hsr] at hl
          cases oOpt with
          | none => exact ih l hl obs hobs
          | some o =>
              cases hr : signaaliRows rest with
              | error e => rw [hr] at hl; exact absurd hl (by simp [Except.map])
              | ok l2 =>
                  rw [hr] at hl
                  simp only [Except.map, Except.ok.injEq] at hl
                  subst hl
                  rcases List.mem_cons.mp hobs with hEq | hIn
                  · subst hEq
                    exact signaaliRow_ssid line obs hsr
                  · exact ih l2 hr obs hIn

/-- Claim C10 (amended): every observation produced by `signal3.py`'s
`parse_nmcli` and by `signaali.py`'s inline parser has a non-empty identity
(empty names become the `<hidden>` sentinel); `wifi.py`'s parsers lack the
normalization — see the counterexample.  Not covered here: `aalto.py`'s
`parse_iwlist` normalizes only a missing `ESSID` field, not an empty one
(an empty-quoted `ESSID` block yields an empty identity there too). -/
theorem C10_identity_nonempty :
    (∀ (lines : List String) (obs : NetworkObservation),
      obs ∈ parse_nmcli_signal3 lines → ∃ s, obs.ssid = some s ∧ s ≠ "") ∧
    (∀ (lines : List String) (obs : NetworkObservation),
      obs ∈ scan_wifi_signaali lines → ∃ s, obs.ssid = some s ∧ s ≠ "") := by
  constructor
  · intro lines obs hmem
    rw [parse_nmcli_signal3, List.mem_filterMap] at hmem
    obtain ⟨line, _, hline⟩ := hmem
    exact parse_nmcli_signal3_line_ssid line obs hline
  · intro lines obs hmem
    rw [scan_wifi_signaali] at hmem
    revert hmem
    split
    · intro hmem; simp at hmem
    · next l hrows => intro hmem; exact signaaliRows_ssid (lines.drop 1) l hrows obs hmem

theorem C10_identity_nonempty_witness :
    ∃ s, (NetworkObservation.mk (some "MyNet") none (some (-60))).ssid = some s ∧ s ≠ "" := by
  refine C10_identity_nonempty.1 ["MyNet    6    80"]
    (NetworkObservation.mk (some "MyNet") none (some (-60))) ?_
  have h : parse_nmcli_signal3 ["MyNet    6    80"] =
      [{ ssid := some "MyNet", freq_mhz := none, dbm := some (-60) }] := by
    simp +decide [parse_nmcli_signal3, parse_nmcli_signal3_line, signal3TokLoop, splitWS2,
      splitGo, stripWS, dropWS, isWS, isAllDigits, digitsToNat, trailingDigits, lastDigitRun,
      startsWithLower, channel_to_freq_mhz, freqTable5]
    norm_num
  rw [h]
  simp

/-- Claim C10 counterexample: `wifi.py`'s `parse_nmcli` produces an
observation whose identity is the empty string (a data row starting with
column whitespace), with no `<hidden>` normalization. -/
theorem C10_counterexample :
    parse_nmcli_wifi ["SSID  CHAN  SIGNAL", "   6  80"] =
      [{ ssid := some "", freq_mhz := some 2437, dbm := some (-20) }] ∧
    ("" : String).length = 0 := by
  constructor
  · simp +decide [parse_nmcli_wifi, parse_nmcli_wifi_line, splitWS2, splitGo, stripWS, dropWS,
      isWS, isAllDigits, digitsToNat, firstDigitRun, startsWithLower,
      channel_to_freq_mhz, freqTable5]
    norm_num
  · rfl

theorem dqAppend_length {α : Type} (N : Nat) (x : α) (l : List α) :
    (dqAppend N x l).length = min (l.length + 1) N := by
  simp [dqAppend]
  omega

/-- Claim C4 evaluation: with maxima −40, −70, −55 the code's top-2 is the
−70 and −55 identities (weakest first), not the −40 and −55 identities the
claim and the source's own comment (the strongest five) require. -/
theorem C4_code_eval :
    top_ssids 2 [("A", [some (-40)]), ("B", [some (-70)]), ("C", [some (-55)])] = ["B", "C"] ∧
    (["B", "C"] : List String) ≠ ["A", "C"] := by
  constructor
  · norm_num [top_ssids, rankAscending, sortAsc, insertAsc, nanmaxOr, List.reduceOption,
      List.foldl, List.filterMap]
  · decide

/-! ## Claims C7 and C9: the debounced time axis and failure ticks -/

/-- Claim C7 (amended): `signaali.py` appends a timestamp on every tick
unconditionally; `signal3.py` appends only when the axis is empty or at
least 1.0 s have passed (and still appends to every series regardless);
`aalto.py` does the same with a 0.9 s threshold. -/
theorem C7_debounce :
    (∀ (N : Nat) (t : ℚ) nets (s : HState),
      (tickSignaali N t nets s).timeAxis = dqAppend N t s.timeAxis) ∧
    (∀ (N : Nat) (t : ℚ) nets (s : HState3),
      s.timeAxis ≠ [] → t - ((s.timeAxis.getLast?).getD 0) < 1 →
      (tickSignal3 N t nets s).timeAxis = s.timeAxis ∧
      (tickSignal3 N t nets s).hist = markAbsent3 N (seenOf nets) (hist3Fold N nets s.hist)) ∧
    (∀ (N : Nat) (t : ℚ) nets (s : HState3),
      s.timeAxis = [] ∨ t - ((s.timeAxis.getLast?).getD 0) ≥ 1 →
      (tickSignal3 N t nets s).timeAxis = dqAppend N t s.timeAxis) ∧
    (∀ (N : Nat) (t : ℚ) nets (s : HStateA),
      s.timeAxis ≠ [] → t - ((s.timeAxis.getLast?).getD 0) < 9/10 →
      (tickAalto N t nets s).timeAxis = s.timeAxis) ∧
    (∀ (N : Nat) (t : ℚ) nets (s : HStateA),
      s.timeAxis = [] ∨ t - ((s.timeAxis.getLast?).getD 0) ≥ 9/10 →
      (tickAalto N t nets s).timeAxis = dqAppend N t s.timeAxis) := by
  refine ⟨fun N t nets s => rfl, ?_, ?_, ?_, ?_⟩
  · intro N t nets s hne hlt
    refine ⟨?_, rfl⟩
    simp only [tickSignal3]
    rw [if_neg]
    rintro (h | h)
    · exact hne h
    · exact absurd h (not_le.mpr hlt)
  · intro N t nets s hcond
    simp only [tickSignal3]
    rw [if_pos hcond]
  · intro N t nets s hne hlt
    simp only [tickAalto]
    rw [if_neg]
    rintro (h | h)
    · exact hne h
    · exact absurd h (not_le.mpr hlt)
  · intro N t nets s hcond
    simp only [tickAalto]
    rw [if_pos hcond]

theorem C7_debounce_witness :
    (tickSignal3 60 (1/2) [] ⟨[0], []⟩).timeAxis = [0] ∧
    (tickAalto 60 2 [] ⟨[0], []⟩).timeAxis = dqAppend 60 2 [0] := by
  constructor
  · exact (C7_debounce.2.1 60 (1/2) [] ⟨[0], []⟩ (by simp) (by norm_num)).1
  · exact C7_debounce.2.2.2.2 60 2 [] ⟨[0], []⟩ (Or.inr (by norm_num))

/-- Claim C7 counterexample: `signaali.py`'s scanner appends a new
timestamp even for a tick 0.5 s after the previous one, below the claimed
~0.9–1.0 s minimum spacing. -/
theorem C7_counterexample :
    (tickSignaali 60 (1/2) [] ⟨[0], []⟩).timeAxis = [0, 1/2] ∧
    ((1/2 : ℚ) - 0 < 9/10) := by
  constructor
  · simp [tickSignaali, dqAppend]
  · norm_num

/-- Claim C9: a tick whose scan failed (zero observations) still advances
the time axis (when the debounce spacing is satisfied) and appends exactly
one absent marker to every previously tracked identity, in both
`signal3.py` and `aalto.py`. -/
theorem C9_scan_failure_tick :
    (∀ (N : Nat) (t : ℚ) (s : HState3),
      s.timeAxis = [] ∨ t - ((s.timeAxis.getLast?).getD 0) ≥ 1 →
      tickSignal3 N t [] s =
        ⟨dqAppend N t s.timeAxis, s.hist.map (fun p => (p.1, p.2.appendNaN N))⟩) ∧
    (∀ (N : Nat) (t : ℚ) (s : HStateA),
      s.timeAxis = [] ∨ t - ((s.timeAxis.getLast?).getD 0) ≥ 9/10 →
      tickAalto N t [] s =
        ⟨dqAppend N t s.timeAxis, s.hist.map (fun p => (p.1, dqAppend N none p.2))⟩) := by
  constructor
  · intro N t s hcond
    simp only [tickSignal3, hist3Fold, List.foldl_nil, markAbsent3, seenOf, List.map_nil,
      List.not_mem_nil, if_neg, if_pos hcond]
    simp
  · intro N t s hcond
    simp only [tickAalto, histAFold, List.foldl_nil, markAbsentA, seenOf, List.map_nil,
      List.not_mem_nil, if_neg, if_pos hcond]
    simp

theorem C9_scan_failure_tick_witness :
    tickSignal3 60 2 [] ⟨[0], [("X", Series4.empty)]⟩ =
      ⟨dqAppend 60 2 [0],
       ([("X", Series4.empty)]).map (fun p => (p.1, Series4.appendNaN 60 p.2))⟩ :=
  C9_scan_failure_tick.1 60 2 ⟨[0], [("X", Series4.empty)]⟩ (Or.inr (by norm_num))

/-! ## Claim C1: series/axis length synchronization -/

theorem histAppend_cons (N : Nat) (id : String) (dbm : Option ℚ) (p : String × Series)
    (rest : List (String × Series)) :
    histAppend N id dbm (p :: rest) =
      if p.1 = id then (p.1, p.2.appendVal N dbm) :: rest
      else p :: histAppend N id dbm rest := rfl

theorem histLookup_cons (idq : String) (p : String × Series) (rest : List (String × Series)) :
    histLookup idq (p :: rest) = if p.1 = idq then some p.2 else histLookup idq rest := rfl

theorem histLookup_histAppend (N : Nat) (id : String) (dbm : Option ℚ)
    (h : List (String × Series)) (idq : String) :
    histLookup idq (histAppend N id dbm h) =
      if idq = id then some (((histLookup id h).getD Series.empty).appendVal N dbm)
      else histLookup idq h := by
  induction h with
  | nil =>
      by_cases hiq : idq = id
      · subst hiq
        simp [histAppend, histLookup]
      · simp [histAppend, histLookup, hiq, Ne.symm hiq]
  | cons p rest ih =>
      rw [histAppend_cons]
      by_cases hp : p.1 = id
      · rw [if_pos hp]
        by_cases hiq : idq = id
        · subst hiq
          rw [if_pos rfl, histLookup_cons, if_pos hp, histLookup_cons, if_pos hp]
          rfl
        · have hpq : ¬ p.1 = idq := fun he => hiq (he.symm.trans hp)
          rw [if_neg hiq, histLookup_cons, if_neg hpq, histLookup_cons, if_neg hpq]
      · rw [if_neg hp]
        by_cases hpq : p.1 = idq
        · have hiq : ¬ idq = id := fun he => hp (hpq.trans he)
          rw [if_neg hiq, histLookup_cons, if_pos hpq, histLookup_cons, if_pos hpq]
        · rw [histLookup_cons, if_neg hpq, ih]
          by_cases hiq : idq = id
          · subst hiq
            rw [if_pos rfl, if_pos rfl, histLookup_cons, if_neg hp]
          · rw [if_neg hiq, if_neg hiq, histLookup_cons, if_neg hpq]

theorem histFold_cons (N : Nat) (n : NetworkObservation) (ns : List NetworkObservation)
    (h : List (String × Series)) :
    histFold N (n :: ns) h = histFold N ns (histAppend N (normSsid n.ssid) n.dbm h) := rfl

theorem seenOf_cons (n : NetworkObservation) (ns : List NetworkObservation) :
    seenOf (n :: ns) = normSsid n.ssid :: seenOf ns := rfl

theorem histLookup_histFold_not_seen (N : Nat) (nets : List NetworkObservation) :
    ∀ (h : List (String × Series)) (idq : String),
      idq ∉ seenOf nets → histLookup idq (histFold N nets h) = histLookup idq h := by
  induction nets with
  | nil => intro h idq _; rfl
  | cons n ns ih =>
      intro h idq hnot
      rw [seenOf_cons, List.mem_cons, not_or] at hnot
      rw [histFold_cons, ih _ idq hnot.2, histLookup_histAppend, if_neg hnot.1]

theorem histLookup_histFold_seen (N : Nat) (nets : List NetworkObservation) :
    ∀ (h : List (String × Series)) (idq : String),
      (seenOf nets).Nodup → idq ∈ seenOf nets →
      ∃ dbm, histLookup idq (histFold N nets h) =
        some (((histLookup idq h).getD Series.empty).appendVal N dbm) := by
  induction nets with
  | nil => intro h idq _ hmem; simp [seenOf] at hmem
  | cons n ns ih =>
      intro h idq hnodup hmem
      rw [seenOf_cons] at hnodup hmem
      rw [List.nodup_cons] at hnodup
      rw [histFold_cons]
      rcases List.mem_cons.mp hmem with hEq | hIn
      · refine ⟨n.dbm, ?_⟩
        have hnotin : idq ∉ seenOf ns := hEq ▸ hnodup.1
        rw [histLookup_histFold_not_seen N ns _ idq hnotin,
          histLookup_histAppend, if_pos hEq, ← hEq]
      · obtain ⟨dbm, hres⟩ := ih (histAppend N (normSsid n.ssid) n.dbm h) idq hnodup.2 hIn
        refine ⟨dbm, ?_⟩
        have hne : idq ≠ normSsid n.ssid := fun he => hnodup.1 (he ▸ hIn)
        rw [hres, histLookup_histAppend, if_neg hne]

theorem markAbsent_cons (N : Nat) (seen : List String) (p : String × Series)
    (rest : List (String × Series)) :
    markAbsent N seen (p :: rest) =
      (if p.1 ∈ seen then p else (p.1, p.2.appendNaN N)) :: markAbsent N seen rest := rfl

theorem histLookup_markAbsent (N : Nat) (seen : List String) :
    ∀ (h : List (String × Series)) (idq : String),
      histLookup idq (markAbsent N seen h) =
        (histLookup idq h).map (fun ser => if idq ∈ seen then ser else ser.appendNaN N) := by
  intro h
  induction h with
  | nil => intro idq; rfl
  | cons p rest ih =>
      intro idq
      rw [markAbsent_cons]
      by_cases hs : p.1 ∈ seen
      · rw [if_pos hs]
        by_cases hpq : p.1 = idq
        · subst hpq
          simp [histLookup_cons, hs]
        · rw [histLookup_cons, if_neg hpq, histLookup_cons, if_neg hpq]
          exact ih idq
      · rw [if_neg hs]
        by_cases hpq : p.1 = idq
        · subst hpq
          simp [histLookup_cons, hs]
        · rw [histLookup_cons, if_neg hpq, histLookup_cons, if_neg hpq]
          exact ih idq

theorem appendVal_lengths (N : Nat) (dbm : Option ℚ) (s0 : Series) :
    (s0.appendVal N dbm).rssi.length = min (s0.rssi.length + 1) N ∧
    (s0.appendVal N dbm).snr.length = min (s0.snr.length + 1) N ∧
    (s0.appendVal N dbm).srri.length = min (s0.srri.length + 1) N := by
  refine ⟨?_, ?_, ?_⟩ <;> simp [Series.appendVal, dqAppend_length]

theorem appendNaN_lengths (N : Nat) (s0 : Series) :
    (s0.appendNaN N).rssi.length = min (s0.rssi.length + 1) N ∧
    (s0.appendNaN N).snr.length = min (s0.snr.length + 1) N ∧
    (s0.appendNaN N).srri.length = min (s0.srri.length + 1) N := by
  refine ⟨?_, ?_, ?_⟩ <;> simp [Series.appendNaN, dqAppend_length]

theorem tick_invariant (N : Nat) (t : ℚ) (nets : List NetworkObservation) (s : HState)
    (hnodup : (seenOf nets).Nodup)
    (hax : s.timeAxis.length ≤ N)
    (hser : ∀ idq ser, histLookup idq s.hist = some ser →
      ser.rssi.length = ser.snr.length ∧ ser.rssi.length = ser.srri.length ∧
      ser.rssi.length ≤ s.timeAxis.length) :
    (tickSignaali N t nets s).timeAxis.length ≤ N ∧
    ∀ idq ser, histLookup idq (tickSignaali N t nets s).hist = some ser →
      ser.rssi.length = ser.snr.length ∧ ser.rssi.length = ser.srri.length ∧
      ser.rssi.length ≤ (tickSignaali N t nets s).timeAxis.length := by
  have haxlen : (tickSignaali N t nets s).timeAxis.length = min (s.timeAxis.length + 1) N := by
    simp [tickSignaali, dqAppend_length]
  constructor
  · rw [haxlen]; omega
  · intro idq ser hlook
    rw [show (tickSignaali N t nets s).hist =
        markAbsent N (seenOf nets) (histFold N nets s.hist) from rfl,
      histLookup_markAbsent] at hlook
    cases hbase : histLookup idq (histFold N nets s.hist) with
    | none => rw [hbase] at hlook; exact absurd hlook (by simp)
    | some ser1 =>
        rw [hbase] at hlook
        have hser2 : ser = if idq ∈ seenOf nets then ser1 else ser1.appendNaN N := by
          simpa using hlook.symm
        by_cases hmem : idq ∈ seenOf nets
        · rw [if_pos hmem] at hser2
          rw [hser2]
          obtain ⟨dbm, heq⟩ := histLookup_histFold_seen N nets s.hist idq hnodup hmem
          rw [heq] at hbase
          have hser1 : ser1 = ((histLookup idq s.hist).getD Series.empty).appendVal N dbm :=
            (Option.some_inj.mp hbase).symm
          rw [hser1]
          cases hbq : histLookup idq s.hist with
          | none =>
              obtain ⟨l1, l2, l3⟩ := appendVal_lengths N dbm (Option.getD none Series.empty)
              rw [haxlen]
              refine ⟨?_, ?_, ?_⟩
              · rw [l1, l2]; simp [Series.empty]
              · rw [l1, l3]; simp [Series.empty]
              · rw [l1]; simp only [Option.getD_none, Series.empty, List.length_nil]; omega
          | some s0 =>
              obtain ⟨e1, e2, le⟩ := hser idq s0 hbq
              have hg : Option.getD (some s0) Series.empty = s0 := rfl
              rw [haxlen, hg]
              obtain ⟨l1, l2, l3⟩ := appendVal_lengths N dbm s0
              refine ⟨?_, ?_, ?_⟩
              · rw [l1, l2, e1]
              · rw [l1, l3, e2]
              · rw [l1]; omega
        · rw [if_neg hmem] at hser2
          rw [hser2]
          rw [histLookup_histFold_not_seen N nets s.hist idq hmem] at hbase
          obtain ⟨e1, e2, le⟩ := hser idq ser1 hbase
          obtain ⟨l1, l2, l3⟩ := appendNaN_lengths N ser1
          rw [haxlen]
          refine ⟨?_, ?_, ?_⟩
          · rw [l1, l2, e1]
          · rw [l1, l3, e2]
          · rw [l1]; omega

/-- Claim C1 (amended): after any tick sequence with per-tick distinct
identities, the time axis never exceeds the capacity `N`, and every tracked
identity's three metric series have equal lengths, bounded by the time-axis
length.  The claimed equality of every series with the time axis fails for
identities first observed late (see the counterexample): the store never
backfills. -/
theorem C1_sync_invariant (N : Nat) (s : HState) (h : ReachD N s) :
    s.timeAxis.length ≤ N ∧
    ∀ idq ser, histLookup idq s.hist = some ser →
      ser.rssi.length = ser.snr.length ∧ ser.rssi.length = ser.srri.length ∧
      ser.rssi.length ≤ s.timeAxis.length := by
  induction h with
  | init =>
      refine ⟨by simp, ?_⟩
      intro idq ser hl
      exact absurd hl (by simp [histLookup])
  | step s hs t nets hnodup ih =>
      exact tick_invariant N t nets s hnodup ih.1 ih.2

/-- Claim C1 counterexample: after the two ticks the time axis has length 2
but the series of B (first observed in tick 2) has length 1 — the claimed
equality `len(time_axis) == len(series[id])` fails. -/
theorem C1_counterexample :
    ¬ (∀ idq ser, histLookup idq s2ex.hist = some ser →
        ser.rssi.length = s2ex.timeAxis.length) := by
  intro hc
  have hlen : (histLookup "B" s2ex.hist).map (fun ser => ser.rssi.length) = some 1 := by
    simp +decide [s2ex, tickSignaali, markAbsent, histFold, histAppend, seenOf, normSsid,
      Series.appendVal, Series.appendNaN, Series.empty, dqAppend, histLookup, obsA, obsB]
  have hax : s2ex.timeAxis.length = 2 := by
    simp +decide [s2ex, tickSignaali, dqAppend]
  cases hser : histLookup "B" s2ex.hist with
  | none => rw [hser] at hlen; exact absurd hlen (by simp)
  | some ser =>
      rw [hser] at hlen
      have h1 : ser.rssi.length = 1 := by simpa using hlen
      have h2 := hc "B" ser hser
      rw [hax, h1] at h2
      exact absurd h2 (by decide)

theorem C1_sync_invariant_witness :
    s2ex.timeAxis.length ≤ 60 ∧
    (∃ ser, histLookup "B" s2ex.hist = some ser ∧
      ser.rssi.length = ser.snr.length ∧ ser.rssi.length ≤ s2ex.timeAxis.length) := by
  have hreach : ReachD 60 s2ex :=
    ReachD.step _ (ReachD.step _ ReachD.init 0 [obsA] (by decide)) 2 [obsA, obsB] (by decide)
  have h := C1_sync_invariant 60 s2ex hreach
  refine ⟨h.1, ?_⟩
  have hlen : (histLookup "B" s2ex.hist).map (fun ser => ser.rssi.length) = some 1 := by
    simp +decide [s2ex, tickSignaali, markAbsent, histFold, histAppend, seenOf, normSsid,
      Series.appendVal, Series.appendNaN, Series.empty, dqAppend, histLookup, obsA, obsB]
  have hex : ∃ ser, histLookup "B" s2ex.hist = some ser := by
    cases hser : histLookup "B" s2ex.hist with
    | none => rw [hser] at hlen; exact absurd hlen (by simp)
    | some ser => exact ⟨ser, rfl⟩
  obtain ⟨ser, hser⟩ := hex
  obtain ⟨e1, _, le⟩ := h.2 "B" ser hser
  exact ⟨ser, hser, e1, le⟩

end Wifi
